import Mathlib

/-!
# Verification of `src/lib_gui/qt/view/graphElements/QtGraphEdge.cpp`

A shallow embedding of the `QtGraphEdge` widget.  The widget's member fields
become a Lean structure; every member function becomes a pure function on that
structure.  Calls into collaborators (the message bus, the child line items,
the Qt base class) are recorded in an explicit trace of `Effect`s.  A
`std::weak_ptr<QtGraphNode>` is embedded as `Option QtGraphNode`: `lock()`
yields the stored value, and `none` stands for an expired pointer.  An
unchecked dereference of an expired pointer (and likewise a failing
`dynamic_cast` that is dereferenced) makes the embedded operation return
`none` (a crash); the one guarded path in `updateLine` instead logs a warning
and leaves the edge unchanged.

External collaborators that only supply data (`GraphViewStyle`,
`Edge::getTypeString`) are passed in as an `ExternalEnv` of abstract
functions, since this file of the repository only consumes their results.
-/

namespace QtGraphEdgeModel

/-- `Id` from `utility/types.h`: a numeric token/edge identifier. -/
abbrev Id := Nat

/-- `Edge::EdgeType` from `data/graph/Edge.h`.  The edge semantic types of the
data model; this file only distinguishes `EDGE_INHERITANCE` and
`EDGE_AGGREGATION` from the rest, so a representative set of the remaining
members suffices. -/
inductive EdgeType
  | EDGE_MEMBER
  | EDGE_TYPE_USAGE
  | EDGE_USAGE
  | EDGE_CALL
  | EDGE_INHERITANCE
  | EDGE_OVERRIDE
  | EDGE_TYPEDEF_OF
  | EDGE_TEMPLATE_SPECIALIZATION_OF
  | EDGE_AGGREGATION
  deriving DecidableEq, Repr

/-- `TokenComponentAggregation::Direction` from
`data/graph/token_component/TokenComponentAggregation.h`.  This file only
distinguishes `DIRECTION_NONE` and `DIRECTION_BACKWARD` from the rest. -/
inductive Direction
  | DIRECTION_NONE
  | DIRECTION_FORWARD
  | DIRECTION_BACKWARD
  | DIRECTION_BIDIRECTIONAL
  deriving DecidableEq, Repr

/-- A `QRectF` as far as this file is concerned: an opaque rectangle value
that is only passed through to the line items. -/
structure Rect where
  x : Int
  y : Int
  w : Int
  h : Int
  deriving DecidableEq, Repr

/-- `Vec2i` from `utility/math/Vector2.h`: a 2-component integer vector. -/
structure Vec2i where
  x : Int
  y : Int
  deriving DecidableEq, Repr

/-- Componentwise difference, `operator-` of `Vector2`. -/
def Vec2i.sub (a b : Vec2i) : Vec2i := ⟨a.x - b.x, a.y - b.y⟩

/-- The squared euclidean length of a `Vec2i`.  `Vector2::getLength()`
returns `√(x² + y²)`; since the components are integers, the comparison
`getLength() > 1.0f` in the source is exactly `sqLength > 1` (the square
root is monotone and `√1 = 1`, and both sides are exactly representable). -/
def Vec2i.sqLength (v : Vec2i) : Int := v.x * v.x + v.y * v.y

/-- The observable interface of a `QtGraphNode` used by this file:
`getIsActive`, `getTokenId`, `getBoundingRect`, `getParentBoundingRect`,
and `getLastParent` (embedded as the id of that parent node, since the
source only compares the returned pointers for equality). -/
structure QtGraphNode where
  isActive : Bool
  tokenId : Id
  boundingRect : Rect
  parentBoundingRect : Rect
  lastParent : Id
  deriving DecidableEq, Repr

/-- The data behind a non-null `const Edge*`, as consumed by this file:
`getId`, `getType`, `getFrom()->getNameHierarchy()`,
`getTo()->getNameHierarchy()`, and the aggregation ids of its
`TokenComponentAggregation` component. -/
structure EdgeData where
  id : Id
  type : EdgeType
  fromNameHierarchy : List String
  toNameHierarchy : List String
  aggregationIds : List Id
  deriving DecidableEq, Repr

/-- `GraphViewStyle::EdgeStyle`, restricted to the fields this file reads:
`isStraight` and `zValue`.  The purely visual fields (colors, widths, …) are
only passed through to the line items and are irrelevant here. -/
structure EdgeStyle where
  isStraight : Bool
  zValue : Int
  deriving DecidableEq, Repr

/-- `GraphViewStyle::NodeStyle` (the count-circle style): opaque data that is
only passed through to `QtStraightLineItem::updateLine`. -/
structure NodeStyle where
  val : Nat
  deriving DecidableEq, Repr

/-- `QtAngledLineItem::Route`. -/
inductive Route
  | ROUTE_ANY
  | ROUTE_HORIZONTAL
  | ROUTE_VERTICAL
  deriving DecidableEq, Repr

/-- `QtAngledLineItem::Pivot`. -/
inductive Pivot
  | PIVOT_SIDE
  | PIVOT_MIDDLE
  deriving DecidableEq, Repr

/-- The dynamic kind of the `QGraphicsItem* m_child`: either a
`QtStraightLineItem` or a `QtAngledLineItem`. -/
inductive ChildKind
  | straight
  | angled
  deriving DecidableEq, Repr

/-- The external functions this file calls for data:
`GraphViewStyle::getStyleForEdgeType`, `GraphViewStyle::getStyleOfCountCircle`
and `Edge::getTypeString`.  They live outside this file and are abstract
parameters of the model. -/
structure ExternalEnv where
  getStyleForEdgeType : EdgeType → Bool → Bool → EdgeStyle
  getStyleOfCountCircle : NodeStyle
  getTypeString : EdgeType → String

/-- One observable action performed by the widget on a collaborator:
a log line, a message dispatched on the bus, a child line item created or
mutated, or a Qt base-class setter. -/
inductive Effect
  | logWarning (msg : String)
  | dispatchActivateEdge (id : Id) (t : EdgeType)
      (fromNames toNames : List String) (aggregationIds : List Id)
  | dispatchGraphNodeBundleSplit (tokenId : Id)
  | dispatchFocusIn (ids : List Id)
  | dispatchFocusOut (ids : List Id)
  | newStraightChild
  | newAngledChild
  | setOnBack (b : Bool)
  | setHorizontalIn (b : Bool)
  | setOnFront (b : Bool)
  | setRoute (r : Route)
  | setPivot (p : Pivot)
  | straightLineUpdate (ownerRect targetRect : Rect) (weight : Nat)
      (style : EdgeStyle) (countStyle : NodeStyle) (showArrow : Bool)
  | angledLineUpdate (ownerRect targetRect ownerParentRect targetParentRect : Rect)
      (style : EdgeStyle) (weight : Nat) (showArrow : Bool)
  | setToolTip (s : String)
  | setZValue (z : Int)
  deriving DecidableEq, Repr

/-- Whether an effect is a message dispatched on the message bus. -/
def Effect.isDispatch : Effect → Bool
  | .dispatchActivateEdge _ _ _ _ _ => true
  | .dispatchGraphNodeBundleSplit _ => true
  | .dispatchFocusIn _ => true
  | .dispatchFocusOut _ => true
  | _ => false

/-- The `EdgeStyle` argument carried by a child-line-item `updateLine` call,
if the effect is one. -/
def Effect.styleArg : Effect → Option EdgeStyle
  | .straightLineUpdate _ _ _ s _ _ => some s
  | .angledLineUpdate _ _ _ _ s _ _ => some s
  | _ => none

/-- The member fields of `QtGraphEdge` (plus `zValue`, the inherited
`QGraphicsItem` z-value that `updateLine` sets). -/
structure QtGraphEdge where
  m_data : Option EdgeData
  m_owner : Option QtGraphNode
  m_target : Option QtGraphNode
  m_child : Option ChildKind
  m_isActive : Bool
  m_fromActive : Bool
  m_toActive : Bool
  m_weight : Nat
  m_direction : Direction
  m_mousePos : Vec2i
  m_mouseMoved : Bool
  zValue : Int
  deriving DecidableEq, Repr

/-- `QtGraphEdge::getData` (line 53). -/
def QtGraphEdge.getData (e : QtGraphEdge) : Option EdgeData := e.m_data

/-- `QtGraphEdge::getOwner` (line 58). -/
def QtGraphEdge.getOwner (e : QtGraphEdge) : Option QtGraphNode := e.m_owner

/-- `QtGraphEdge::getTarget` (line 63). -/
def QtGraphEdge.getTarget (e : QtGraphEdge) : Option QtGraphNode := e.m_target

/-- `QtGraphEdge::getIsActive` (line 162). -/
def QtGraphEdge.getIsActive (e : QtGraphEdge) : Bool := e.m_isActive

/-- Lines 79-87 of `updateLine`: the semantic edge type used for styling is
the data's type when the edge has data, and `EDGE_AGGREGATION` otherwise. -/
def QtGraphEdge.edgeType (e : QtGraphEdge) : EdgeType :=
  match e.m_data with
  | some d => d.type
  | none => EdgeType.EDGE_AGGREGATION

/-- The `LOG_WARNING` text at line 75. -/
def warningMessage : String := "Either the owner or the target node is null."

/-- Lines 148-157 of `updateLine`: the tooltip is the type string, with
`": <weight> edge(s)"` appended for aggregation edges. -/
def toolTipFor (env : ExternalEnv) (e : QtGraphEdge) : String :=
  let base := env.getTypeString e.edgeType
  if e.edgeType = EdgeType.EDGE_AGGREGATION then
    base ++ ": " ++ toString e.m_weight ++ " edge" ++ (if e.m_weight ≠ 1 then "s" else "")
  else base

/-- The effect trace of the `style.isStraight` branch of `updateLine`
(lines 91-104) followed by the common tail (lines 148-159): create the
straight child when there is none, call its `updateLine` with both node
bounding rects, the weight, the edge style, the count-circle style and the
arrow flag, then set the tooltip and the z-value. -/
def straightEffects (env : ExternalEnv) (e : QtGraphEdge)
    (owner target : QtGraphNode) : List Effect :=
  let style := env.getStyleForEdgeType e.edgeType e.m_isActive false
  (if e.m_child = none then [Effect.newStraightChild] else []) ++
  [Effect.straightLineUpdate owner.boundingRect target.boundingRect e.m_weight style
      env.getStyleOfCountCircle (decide (e.m_direction ≠ Direction.DIRECTION_NONE)),
   Effect.setToolTip (toolTipFor env e),
   Effect.setZValue style.zValue]

/-- The effect trace of the angled branch of `updateLine` (lines 105-146)
followed by the common tail (lines 148-159). -/
def angledEffects (env : ExternalEnv) (e : QtGraphEdge)
    (owner target : QtGraphNode) : List Effect :=
  let type := e.edgeType
  let style := env.getStyleForEdgeType type e.m_isActive false
  let sameParent := owner.lastParent = target.lastParent
  (if e.m_child = none then [Effect.newAngledChild] else []) ++
  (if e.m_fromActive = true ∧ sameParent then [Effect.setOnBack true] else []) ++
  (if e.m_toActive = true then
      Effect.setHorizontalIn true :: (if sameParent then [Effect.setOnFront true] else [])
    else []) ++
  (if type ≠ EdgeType.EDGE_INHERITANCE ∧ type ≠ EdgeType.EDGE_AGGREGATION then
      [Effect.setRoute Route.ROUTE_HORIZONTAL]
    else []) ++
  (if type = EdgeType.EDGE_AGGREGATION then [Effect.setPivot Pivot.PIVOT_MIDDLE] else []) ++
  [Effect.angledLineUpdate owner.boundingRect target.boundingRect
      owner.parentBoundingRect target.parentBoundingRect style e.m_weight
      (if type = EdgeType.EDGE_AGGREGATION then
        decide (e.m_direction ≠ Direction.DIRECTION_NONE)
      else true),
   Effect.setToolTip (toolTipFor env e),
   Effect.setZValue style.zValue]

/-- `QtGraphEdge::updateLine` (lines 68-160).  When the owner or the target
weak pointer has expired, a warning is logged and nothing changes (lines
73-77).  Otherwise the edge style picks the straight or the angled branch;
a child of the needed kind is created only when `m_child` is still null, and
the subsequent `dynamic_cast` is dereferenced unchecked, so a pre-existing
child of the other kind crashes (`none`). -/
def updateLine (env : ExternalEnv) (e : QtGraphEdge) :
    Option (QtGraphEdge × List Effect) :=
  match e.m_owner, e.m_target with
  | some owner, some target =>
    let style := env.getStyleForEdgeType e.edgeType e.m_isActive false
    if style.isStraight then
      if e.m_child = some ChildKind.angled then none
      else
        some ({ e with m_child := some ChildKind.straight, zValue := style.zValue },
          straightEffects env e owner target)
    else
      if e.m_child = some ChildKind.straight then none
      else
        some ({ e with m_child := some ChildKind.angled, zValue := style.zValue },
          angledEffects env e owner target)
  | _, _ => some (e, [Effect.logWarning warningMessage])

/-- `QtGraphEdge::QtGraphEdge` (lines 18-47).  With `DIRECTION_BACKWARD` the
owner and target are swapped (lines 38-41); then both weak pointers are
locked and dereferenced without a null check (lines 43-44, a crash when
either has expired), and `updateLine` runs.  The inherited z-value starts at
the `QGraphicsItem` default `0`. -/
def construct (env : ExternalEnv) (owner target : Option QtGraphNode)
    (data : Option EdgeData) (weight : Nat) (isActive : Bool)
    (direction : Direction) : Option (QtGraphEdge × List Effect) :=
  let p :=
    if direction = Direction.DIRECTION_BACKWARD then (target, owner) else (owner, target)
  match p.1, p.2 with
  | some o, some t =>
    updateLine env
      { m_data := data
        m_owner := some o
        m_target := some t
        m_child := none
        m_isActive := isActive
        m_fromActive := o.isActive
        m_toActive := t.isActive
        m_weight := weight
        m_direction := direction
        m_mousePos := ⟨0, 0⟩
        m_mouseMoved := false
        zValue := 0 }
  | _, _ => none

/-- `QtGraphEdge::setIsActive` (lines 167-174): redraw only on change. -/
def setIsActive (env : ExternalEnv) (e : QtGraphEdge) (isActive : Bool) :
    Option (QtGraphEdge × List Effect) :=
  if e.m_isActive ≠ isActive then
    updateLine env { e with m_isActive := isActive }
  else some (e, [])

/-- `QtGraphEdge::setDirection` (lines 261-268): redraw only on change. -/
def setDirection (env : ExternalEnv) (e : QtGraphEdge) (direction : Direction) :
    Option (QtGraphEdge × List Effect) :=
  if e.m_direction ≠ direction then
    updateLine env { e with m_direction := direction }
  else some (e, [])

/-- `QtGraphEdge::onClick` (lines 176-201).  Without data, the bundle-split
message carries the token id of `m_target` (`m_owner` when the direction is
backward); the weak pointer is locked and dereferenced without a null check
(line 182).  With data, the activate-edge message carries the data's id,
type and name hierarchies, with the aggregation ids attached for
`EDGE_AGGREGATION` (otherwise the message keeps its default empty list). -/
def onClick (e : QtGraphEdge) : Option (List Effect) :=
  match e.m_data with
  | none =>
    match (if e.m_direction = Direction.DIRECTION_BACKWARD then e.m_owner else e.m_target) with
    | some n => some [Effect.dispatchGraphNodeBundleSplit n.tokenId]
    | none => none
  | some d =>
    some [Effect.dispatchActivateEdge d.id d.type d.fromNameHierarchy d.toNameHierarchy
      (if d.type = EdgeType.EDGE_AGGREGATION then d.aggregationIds else [])]

/-- `QtGraphEdge::focusIn` (lines 203-208): redraw as active via
`setIsActive(true)`, then restore the saved `m_isActive`. -/
def focusIn (env : ExternalEnv) (e : QtGraphEdge) :
    Option (QtGraphEdge × List Effect) :=
  let isActive := e.m_isActive
  match setIsActive env e true with
  | some (e1, effs) => some ({ e1 with m_isActive := isActive }, effs)
  | none => none

/-- `QtGraphEdge::focusOut` (lines 210-213): just redraw. -/
def focusOut (env : ExternalEnv) (e : QtGraphEdge) :
    Option (QtGraphEdge × List Effect) :=
  updateLine env e

/-- `QtGraphEdge::mousePressEvent` (lines 215-219).  The scene position of
the event arrives already truncated to a `Vec2i`. -/
def mousePressEvent (e : QtGraphEdge) (scenePos : Vec2i) : QtGraphEdge :=
  { e with m_mousePos := scenePos, m_mouseMoved := false }

/-- `QtGraphEdge::mouseMoveEvent` (lines 221-229): set the moved flag once
the distance from the press position exceeds 1 (see `Vec2i.sqLength`). -/
def mouseMoveEvent (e : QtGraphEdge) (scenePos : Vec2i) : QtGraphEdge :=
  if (Vec2i.sub scenePos e.m_mousePos).sqLength > 1 then
    { e with m_mouseMoved := true }
  else e

/-- `QtGraphEdge::mouseReleaseEvent` (lines 231-237): click unless moved. -/
def mouseReleaseEvent (e : QtGraphEdge) : Option (List Effect) :=
  if e.m_mouseMoved then some [] else onClick e

/-- `QtGraphEdge::hoverEnterEvent` (lines 239-248). -/
def hoverEnterEvent (env : ExternalEnv) (e : QtGraphEdge) :
    Option (QtGraphEdge × List Effect) :=
  match e.m_data with
  | none => focusIn env e
  | some d => some (e, [Effect.dispatchFocusIn [d.id]])

/-- `QtGraphEdge::hoverLeaveEvent` (lines 250-259). -/
def hoverLeaveEvent (env : ExternalEnv) (e : QtGraphEdge) :
    Option (QtGraphEdge × List Effect) :=
  match e.m_data with
  | none => focusOut env e
  | some d => some (e, [Effect.dispatchFocusOut [d.id]])

end QtGraphEdgeModel

namespace QtGraphEdgeModel

/-! ## Helper lemmas -/

/-- Membership in a conditional list that is empty in the negative branch. -/
theorem mem_ite_nil_iff {α : Type} {c : Prop} [Decidable c] {l : List α} {x : α} :
    x ∈ (if c then l else []) ↔ c ∧ x ∈ l := by
  split <;> simp_all

/-- A pointwise property holds on a conditional list if it holds on the
positive branch. -/
theorem forall_mem_ite_nil {α : Type} {p : α → Prop} {c : Prop} [Decidable c]
    {l : List α} (hl : ∀ x ∈ l, p x) : ∀ x ∈ (if c then l else []), p x := by
  split
  · exact hl
  · intro x hx
    exact absurd hx (List.not_mem_nil x)

/-- Complete case analysis of a successful `updateLine` run: either a weak
pointer had expired and only the warning was logged, or both nodes were
alive and exactly one of the two branches ran. -/
theorem updateLine_cases (env : ExternalEnv) (e e1 : QtGraphEdge)
    (effs : List Effect) (h : updateLine env e = some (e1, effs)) :
    (e1 = e ∧ effs = [Effect.logWarning warningMessage] ∧
      (e.m_owner = none ∨ e.m_target = none)) ∨
    (∃ owner target, e.m_owner = some owner ∧ e.m_target = some target ∧
      (((env.getStyleForEdgeType e.edgeType e.m_isActive false).isStraight = true ∧
          e.m_child ≠ some ChildKind.angled ∧
          e1 = { e with m_child := some ChildKind.straight, zValue := (env.getStyleForEdgeType e.edgeType e.m_isActive false).zValue } ∧
          effs = straightEffects env e owner target) ∨
        ((env.getStyleForEdgeType e.edgeType e.m_isActive false).isStraight = false ∧
          e.m_child ≠ some ChildKind.straight ∧
          e1 = { e with m_child := some ChildKind.angled, zValue := (env.getStyleForEdgeType e.edgeType e.m_isActive false).zValue } ∧
          effs = angledEffects env e owner target))) := by
  rcases ho : e.m_owner with _ | owner <;> rcases ht : e.m_target with _ | target <;>
    simp only [updateLine, ho, ht, Option.some.injEq, Prod.mk.injEq] at h
  · exact Or.inl ⟨h.1.symm, h.2.symm, Or.inl rfl⟩
  · exact Or.inl ⟨h.1.symm, h.2.symm, Or.inl rfl⟩
  · exact Or.inl ⟨h.1.symm, h.2.symm, Or.inr rfl⟩
  · by_cases hs : (env.getStyleForEdgeType e.edgeType e.m_isActive false).isStraight = true
    · rw [if_pos hs] at h
      by_cases hc : e.m_child = some ChildKind.angled
      · rw [if_pos hc] at h
        exact absurd h (by simp)
      · rw [if_neg hc] at h
        simp only [Option.some.injEq, Prod.mk.injEq] at h
        exact Or.inr ⟨owner, target, rfl, rfl, Or.inl ⟨hs, hc, h.1.symm, h.2.symm⟩⟩
    · rw [if_neg hs] at h
      by_cases hc : e.m_child = some ChildKind.straight
      · rw [if_pos hc] at h
        exact absurd h (by simp)
      · rw [if_neg hc] at h
        simp only [Option.some.injEq, Prod.mk.injEq] at h
        have hs' : (env.getStyleForEdgeType e.edgeType e.m_isActive false).isStraight = false := by
          simpa using hs
        exact Or.inr ⟨owner, target, rfl, rfl, Or.inr ⟨hs', hc, h.1.symm, h.2.symm⟩⟩

/-- `updateLine` touches only `m_child` and the z-value: every other member
field of the edge is unchanged whenever it returns at all. -/
theorem updateLine_preserves (env : ExternalEnv) (e e1 : QtGraphEdge)
    (effs : List Effect) (h : updateLine env e = some (e1, effs)) :
    e1.m_data = e.m_data ∧ e1.m_owner = e.m_owner ∧ e1.m_target = e.m_target ∧
    e1.m_isActive = e.m_isActive ∧ e1.m_fromActive = e.m_fromActive ∧
    e1.m_toActive = e.m_toActive ∧ e1.m_weight = e.m_weight ∧
    e1.m_direction = e.m_direction ∧ e1.m_mousePos = e.m_mousePos ∧
    e1.m_mouseMoved = e.m_mouseMoved := by
  rcases updateLine_cases env e e1 effs h with ⟨rfl, -, -⟩ |
    ⟨o, t, -, -, ⟨-, -, rfl, -⟩ | ⟨-, -, rfl, -⟩⟩ <;>
    exact ⟨rfl, rfl, rfl, rfl, rfl, rfl, rfl, rfl, rfl, rfl⟩

/-- No effect of the straight branch is a message dispatch. -/
theorem straightEffects_not_dispatch (env : ExternalEnv) (e : QtGraphEdge)
    (owner target : QtGraphNode) :
    ∀ f ∈ straightEffects env e owner target, f.isDispatch = false := by
  unfold straightEffects
  refine List.forall_mem_append.2 ⟨forall_mem_ite_nil ?_, ?_⟩ <;>
    intro f hf <;> simp only [List.mem_cons, List.not_mem_nil, or_false] at hf
  · subst hf; rfl
  · rcases hf with rfl | rfl | rfl <;> rfl

/-- No effect of the angled branch is a message dispatch. -/
theorem angledEffects_not_dispatch (env : ExternalEnv) (e : QtGraphEdge)
    (owner target : QtGraphNode) :
    ∀ f ∈ angledEffects env e owner target, f.isDispatch = false := by
  intro f hf
  unfold angledEffects at hf
  simp only [List.mem_append, mem_ite_nil_iff, List.mem_cons, List.not_mem_nil,
    or_false] at hf
  casesm* _ ∨ _, _ ∧ _ <;> subst_vars <;> rfl

/-- No effect emitted by `updateLine` is a message dispatch: the redraw talks
only to the child line items, the log and the Qt base class. -/
theorem updateLine_not_dispatch (env : ExternalEnv) (e e1 : QtGraphEdge)
    (effs : List Effect) (h : updateLine env e = some (e1, effs)) :
    ∀ f ∈ effs, f.isDispatch = false := by
  rcases updateLine_cases env e e1 effs h with ⟨-, rfl, -⟩ |
    ⟨o, t, -, -, ⟨-, -, -, rfl⟩ | ⟨-, -, -, rfl⟩⟩
  · intro f hf
    simp only [List.mem_singleton] at hf
    subst hf; rfl
  · exact straightEffects_not_dispatch env e o t
  · exact angledEffects_not_dispatch env e o t

/-- After a successful `setIsActive env e b`, the stored flag is `b`. -/
theorem setIsActive_result_flag (env : ExternalEnv) (e e1 : QtGraphEdge)
    (effs : List Effect) (b : Bool)
    (h : setIsActive env e b = some (e1, effs)) : e1.m_isActive = b := by
  unfold setIsActive at h
  by_cases hc : e.m_isActive = b
  · rw [if_neg (not_not_intro hc)] at h
    simp only [Option.some.injEq, Prod.mk.injEq] at h
    rw [← h.1, hc]
  · rw [if_pos hc] at h
    have := (updateLine_preserves env _ e1 effs h).2.2.2.1
    simpa using this

/-- After a successful `setDirection env e d`, the stored direction is `d`. -/
theorem setDirection_result_direction (env : ExternalEnv) (e e1 : QtGraphEdge)
    (effs : List Effect) (d : Direction)
    (h : setDirection env e d = some (e1, effs)) : e1.m_direction = d := by
  unfold setDirection at h
  by_cases hc : e.m_direction = d
  · rw [if_neg (not_not_intro hc)] at h
    simp only [Option.some.injEq, Prod.mk.injEq] at h
    rw [← h.1, hc]
  · rw [if_pos hc] at h
    have := (updateLine_preserves env _ e1 effs h).2.2.2.2.2.2.2.1
    simpa using this

end QtGraphEdgeModel

namespace QtGraphEdgeModel

/-! ## Claim specifications -/

/-- The dispatch behaviour claimed for `onClick`: with data, exactly one
`MessageActivateEdge` carrying the data's id, type and name hierarchies
(aggregation ids attached only for `EDGE_AGGREGATION`); without data,
exactly one `MessageGraphNodeBundleSplit` carrying the token id of the
target node (owner node when the direction is backward). -/
def OnClickSpec (e : QtGraphEdge) : Prop :=
  (∀ d, e.m_data = some d →
      onClick e =
        some [Effect.dispatchActivateEdge d.id d.type d.fromNameHierarchy d.toNameHierarchy
          (if d.type = EdgeType.EDGE_AGGREGATION then d.aggregationIds else [])]) ∧
  (e.m_data = none → ∀ n,
      (if e.m_direction = Direction.DIRECTION_BACKWARD then e.m_owner else e.m_target) = some n →
      onClick e = some [Effect.dispatchGraphNodeBundleSplit n.tokenId])

/-! ## Claim theorems -/

/-- C1: For every click, exactly one message is dispatched: a
`MessageActivateEdge` with the data's id, type and from/to name hierarchies
(plus the aggregation ids when the type is `EDGE_AGGREGATION`) when the edge
has data, and otherwise a `MessageGraphNodeBundleSplit` with the token id of
the target node (owner node when the direction is `DIRECTION_BACKWARD`). -/
theorem onClick_single_message (e : QtGraphEdge) : OnClickSpec e := by
  constructor
  · intro d hd
    simp only [onClick, hd]
  · intro h n hn
    simp only [onClick, h, hn]

/-- C3: The only defensive null check is in `updateLine`, which logs a
warning and changes nothing when a node pointer has expired; the
constructor (lines 43-44) and `onClick` (line 182) dereference their locked
weak pointers unchecked, so they crash on an expired pointer. -/
theorem single_null_check (env : ExternalEnv) :
    (∀ e : QtGraphEdge, e.m_owner = none ∨ e.m_target = none →
        updateLine env e = some (e, [Effect.logWarning warningMessage])) ∧
    (∀ (owner target : Option QtGraphNode) (data : Option EdgeData)
        (weight : Nat) (active : Bool) (direction : Direction),
        owner = none ∨ target = none →
        construct env owner target data weight active direction = none) ∧
    (∀ e : QtGraphEdge, e.m_data = none →
        (if e.m_direction = Direction.DIRECTION_BACKWARD then e.m_owner else e.m_target) = none →
        onClick e = none) := by
  refine ⟨?_, ?_, ?_⟩
  · intro e h
    rcases h with h | h
    · rcases ht : e.m_target with _ | t <;> simp [updateLine, h, ht]
    · rcases ho : e.m_owner with _ | o <;> simp [updateLine, ho, h]
  · intro owner target data weight active direction h
    rcases h with rfl | rfl
    · by_cases hd : direction = Direction.DIRECTION_BACKWARD
      · cases target <;> simp [construct, hd]
      · simp [construct, hd]
    · by_cases hd : direction = Direction.DIRECTION_BACKWARD
      · simp [construct, hd]
      · cases owner <;> simp [construct, hd]
  · intro e h hn
    simp [onClick, h, hn]

/-- Folding mouse moves only ever raises the moved flag, and raises it
exactly when some move is farther than distance 1 from the recorded press
position (which the moves themselves never change). -/
theorem mouseMoveEvent_eq (s : QtGraphEdge) (q : Vec2i) :
    mouseMoveEvent s q =
      { s with m_mouseMoved := s.m_mouseMoved ||
          decide ((Vec2i.sub q s.m_mousePos).sqLength > 1) } := by
  unfold mouseMoveEvent
  by_cases hq : (Vec2i.sub q s.m_mousePos).sqLength > 1
  · rw [if_pos hq]
    simp [hq]
  · rw [if_neg hq]
    simp [hq]

theorem foldl_mouseMove (ms : List Vec2i) (s : QtGraphEdge) :
    ms.foldl mouseMoveEvent s =
      { s with m_mouseMoved := s.m_mouseMoved ||
          ms.any (fun q => decide ((Vec2i.sub q s.m_mousePos).sqLength > 1)) } := by
  induction ms generalizing s with
  | nil => simp
  | cons q ms ih =>
    rw [List.foldl_cons, mouseMoveEvent_eq, ih]
    simp [Bool.or_assoc]

/-- `onClick` ignores the mouse-tracking fields. -/
theorem onClick_mouse_invariant (e : QtGraphEdge) (p : Vec2i) (b : Bool) :
    onClick { e with m_mousePos := p, m_mouseMoved := b } = onClick e := rfl

/-- C7: A mouse release triggers `onClick` iff no move since the last press
went farther than distance 1 from the press position: the press records the
position and clears the flag, each move beyond distance 1 sets the flag, and
the release clicks exactly when the flag is still clear. -/
theorem mouse_click_gesture (e : QtGraphEdge) (p : Vec2i) (ms : List Vec2i) :
    mousePressEvent e p = { e with m_mousePos := p, m_mouseMoved := false } ∧
    (ms.foldl mouseMoveEvent (mousePressEvent e p)).m_mouseMoved =
      ms.any (fun q => decide ((Vec2i.sub q p).sqLength > 1)) ∧
    mouseReleaseEvent (ms.foldl mouseMoveEvent (mousePressEvent e p)) =
      (if ms.any (fun q => decide ((Vec2i.sub q p).sqLength > 1)) = true then some []
       else onClick e) := by
  refine ⟨rfl, ?_, ?_⟩
  · rw [foldl_mouseMove]
    simp [mousePressEvent]
  · rw [foldl_mouseMove]
    by_cases ha : ms.any (fun q => decide ((Vec2i.sub q p).sqLength > 1)) = true
    · simp [mousePressEvent, mouseReleaseEvent, ha]
    · simp only [Bool.not_eq_true] at ha
      simp [mousePressEvent, mouseReleaseEvent, ha]
      exact onClick_mouse_invariant e p false

/-- C8: Construction with `DIRECTION_BACKWARD` swaps the owner and target,
so `getOwner` afterwards returns the target argument and `getTarget` the
owner argument; any other direction leaves them unswapped. -/
theorem construct_swaps_backward (env : ExternalEnv) (owner target : Option QtGraphNode)
    (data : Option EdgeData) (weight : Nat) (active : Bool) (direction : Direction)
    (e : QtGraphEdge) (effs : List Effect)
    (h : construct env owner target data weight active direction = some (e, effs)) :
    (direction = Direction.DIRECTION_BACKWARD →
        e.getOwner = target ∧ e.getTarget = owner) ∧
    (direction ≠ Direction.DIRECTION_BACKWARD →
        e.getOwner = owner ∧ e.getTarget = target) := by
  by_cases hd : direction = Direction.DIRECTION_BACKWARD
  · refine ⟨fun _ => ?_, fun hc => absurd hd hc⟩
    rcases hto : target with _ | t <;> rcases hoo : owner with _ | o <;>
      simp [construct, hd, hto, hoo] at h <;>
      have hp := updateLine_preserves env _ e effs h
    · exact ⟨by simpa [QtGraphEdge.getOwner] using hp.2.1,
        by simpa [QtGraphEdge.getTarget] using hp.2.2.1⟩
  · refine ⟨fun hc => absurd hc hd, fun _ => ?_⟩
    rcases hoo : owner with _ | o <;> rcases hto : target with _ | t <;>
      simp [construct, hd, hto, hoo] at h <;>
      have hp := updateLine_preserves env _ e effs h
    · exact ⟨by simpa [QtGraphEdge.getOwner] using hp.2.1,
        by simpa [QtGraphEdge.getTarget] using hp.2.2.1⟩

/-- C9: `focusIn` redraws but restores the activity flag: `getIsActive`
afterwards equals `getIsActive` before. -/
theorem focusIn_preserves_active (env : ExternalEnv) (e e1 : QtGraphEdge)
    (effs : List Effect) (h : focusIn env e = some (e1, effs)) :
    e1.getIsActive = e.getIsActive := by
  unfold focusIn at h
  rcases hs : setIsActive env e true with _ | ⟨e2, effs2⟩
  · simp [hs] at h
  · rw [hs] at h
    simp only [Option.some.injEq, Prod.mk.injEq] at h
    obtain ⟨h1, -⟩ := h
    subst h1
    rfl

/-- C10: `setIsActive` and `setDirection` are no-ops (state unchanged, no
effects, no redraw) when passed the current value, and both are idempotent:
after one call, a second call with the same argument changes nothing. -/
theorem setters_noop_idempotent (env : ExternalEnv) (e : QtGraphEdge)
    (b : Bool) (d : Direction) :
    (e.getIsActive = b → setIsActive env e b = some (e, [])) ∧
    (e.m_direction = d → setDirection env e d = some (e, [])) ∧
    (∀ e1 effs, setIsActive env e b = some (e1, effs) →
        setIsActive env e1 b = some (e1, [])) ∧
    (∀ e1 effs, setDirection env e d = some (e1, effs) →
        setDirection env e1 d = some (e1, [])) := by
  refine ⟨?_, ?_, ?_, ?_⟩
  · intro hb
    have hb' : e.m_isActive = b := hb
    unfold setIsActive
    rw [if_neg (not_not_intro hb')]
  · intro hd
    unfold setDirection
    rw [if_neg (not_not_intro hd)]
  · intro e1 effs h
    have hb := setIsActive_result_flag env e e1 effs b h
    unfold setIsActive
    rw [if_neg (not_not_intro hb)]
  · intro e1 effs h
    have hd := setDirection_result_direction env e e1 effs d h
    unfold setDirection
    rw [if_neg (not_not_intro hd)]

end QtGraphEdgeModel

namespace QtGraphEdgeModel

/-- No effect of a `setIsActive` call is a message dispatch. -/
theorem setIsActive_not_dispatch (env : ExternalEnv) (e e1 : QtGraphEdge)
    (effs : List Effect) (b : Bool) (h : setIsActive env e b = some (e1, effs)) :
    ∀ f ∈ effs, f.isDispatch = false := by
  unfold setIsActive at h
  by_cases hc : e.m_isActive = b
  · rw [if_neg (not_not_intro hc)] at h
    simp only [Option.some.injEq, Prod.mk.injEq] at h
    obtain ⟨-, h2⟩ := h
    subst h2
    intro f hf
    exact absurd hf (List.not_mem_nil f)
  · rw [if_pos hc] at h
    exact updateLine_not_dispatch env _ e1 effs h

/-- No effect of a `focusIn` call is a message dispatch. -/
theorem focusIn_not_dispatch (env : ExternalEnv) (e e1 : QtGraphEdge)
    (effs : List Effect) (h : focusIn env e = some (e1, effs)) :
    ∀ f ∈ effs, f.isDispatch = false := by
  unfold focusIn at h
  rcases hs : setIsActive env e true with _ | ⟨e2, effs2⟩
  · simp [hs] at h
  · rw [hs] at h
    simp only [Option.some.injEq, Prod.mk.injEq] at h
    obtain ⟨-, h2⟩ := h
    subst h2
    exact setIsActive_not_dispatch env e e2 effs2 true hs

/-- The routing behaviour claimed for `updateLine` with both nodes alive:
the straight/angled choice follows `EdgeStyle.isStraight`, the matching child
line item receives the update call with the documented arguments, and a child
is created exactly when none existed. -/
def RouteChoiceSpec (env : ExternalEnv) (e : QtGraphEdge) (o t : QtGraphNode)
    (e1 : QtGraphEdge) (effs : List Effect) : Prop :=
  ((env.getStyleForEdgeType e.edgeType e.m_isActive false).isStraight = true →
      e1.m_child = some ChildKind.straight ∧
      Effect.straightLineUpdate o.boundingRect t.boundingRect e.m_weight
        (env.getStyleForEdgeType e.edgeType e.m_isActive false)
        env.getStyleOfCountCircle
        (decide (e.m_direction ≠ Direction.DIRECTION_NONE)) ∈ effs ∧
      (Effect.newStraightChild ∈ effs ↔ e.m_child = none)) ∧
  ((env.getStyleForEdgeType e.edgeType e.m_isActive false).isStraight = false →
      e1.m_child = some ChildKind.angled ∧
      Effect.angledLineUpdate o.boundingRect t.boundingRect o.parentBoundingRect
        t.parentBoundingRect (env.getStyleForEdgeType e.edgeType e.m_isActive false)
        e.m_weight
        (if e.edgeType = EdgeType.EDGE_AGGREGATION then
          decide (e.m_direction ≠ Direction.DIRECTION_NONE)
        else true) ∈ effs ∧
      (Effect.newAngledChild ∈ effs ↔ e.m_child = none))

/-- C2: `updateLine` with both nodes alive routes by
`GraphViewStyle::getStyleForEdgeType(...).isStraight`: straight styles go to
a `QtStraightLineItem` child updated with the two node bounding rects, the
weight and the styles; other styles go to a `QtAngledLineItem` child updated
with the node and parent bounding rects; a child of the matching kind is
created only when none exists yet. -/
theorem updateLine_route_choice (env : ExternalEnv) (e e1 : QtGraphEdge)
    (o t : QtGraphNode) (effs : List Effect)
    (ho : e.m_owner = some o) (ht : e.m_target = some t)
    (h : updateLine env e = some (e1, effs)) :
    RouteChoiceSpec env e o t e1 effs := by
  rcases updateLine_cases env e e1 effs h with ⟨-, -, hdead | hdead⟩ |
    ⟨o', t', ho', ht', hbr⟩
  · rw [hdead] at ho
    exact absurd ho (by simp)
  · rw [hdead] at ht
    exact absurd ht (by simp)
  · rw [ho] at ho'
    rw [ht] at ht'
    obtain rfl := Option.some.inj ho'
    obtain rfl := Option.some.inj ht'
    rcases hbr with ⟨hs, hc, he1, heffs⟩ | ⟨hs, hc, he1, heffs⟩ <;>
      subst he1 <;> subst heffs
    · refine ⟨fun _ => ⟨rfl, ?_, ?_⟩, fun hns => absurd hs (by simp [hns])⟩
      · simp [straightEffects]
      · by_cases hn : e.m_child = none <;> simp [straightEffects, hn]
    · refine ⟨fun hys => absurd hs (by simp [hys]), fun _ => ⟨rfl, ?_, ?_⟩⟩
      · simp [angledEffects]
      · by_cases hn : e.m_child = none <;> simp [angledEffects, hn, mem_ite_nil_iff]

/-- The hover behaviour claimed for the two hover handlers: with data a
single `MessageFocusIn`/`MessageFocusOut` carrying the one-element id list
and no state change; without data no message at all, only a redraw through
`focusIn`/`focusOut`. -/
def HoverSpec (env : ExternalEnv) (e : QtGraphEdge) : Prop :=
  (∀ d, e.m_data = some d →
      hoverEnterEvent env e = some (e, [Effect.dispatchFocusIn [d.id]]) ∧
      hoverLeaveEvent env e = some (e, [Effect.dispatchFocusOut [d.id]])) ∧
  (e.m_data = none →
      hoverEnterEvent env e = focusIn env e ∧
      hoverLeaveEvent env e = focusOut env e ∧
      (∀ e1 effs, hoverEnterEvent env e = some (e1, effs) →
          ∀ f ∈ effs, f.isDispatch = false) ∧
      (∀ e1 effs, hoverLeaveEvent env e = some (e1, effs) →
          ∀ f ∈ effs, f.isDispatch = false))

/-- C4: Hover-enter with data dispatches exactly `MessageFocusIn [id]` with
no local state change, hover-leave with data exactly `MessageFocusOut [id]`;
without data no message is dispatched and the edge redraws itself via
`focusIn` on enter and `focusOut` on leave. -/
theorem hover_events (env : ExternalEnv) (e : QtGraphEdge) : HoverSpec env e := by
  constructor
  · intro d hd
    exact ⟨by simp [hoverEnterEvent, hd], by simp [hoverLeaveEvent, hd]⟩
  · intro hnone
    have hen : hoverEnterEvent env e = focusIn env e := by
      simp [hoverEnterEvent, hnone]
    have hlv : hoverLeaveEvent env e = focusOut env e := by
      simp [hoverLeaveEvent, hnone]
    refine ⟨hen, hlv, ?_, ?_⟩
    · intro e1 effs h
      rw [hen] at h
      exact focusIn_not_dispatch env e e1 effs h
    · intro e1 effs h
      rw [hlv] at h
      unfold focusOut at h
      exact updateLine_not_dispatch env e e1 effs h

/-- The styling claim for `updateLine`: the semantic type is the data's type
(or `EDGE_AGGREGATION` without data), the one style consulted is
`getStyleForEdgeType(type, m_isActive, false)`, every style forwarded to a
child update is that style, and the edge's z-value becomes its `zValue`. -/
def StyleUsageSpec (env : ExternalEnv) (e e1 : QtGraphEdge)
    (effs : List Effect) : Prop :=
  (∀ d, e.m_data = some d → e.edgeType = d.type) ∧
  (e.m_data = none → e.edgeType = EdgeType.EDGE_AGGREGATION) ∧
  e1.zValue = (env.getStyleForEdgeType e.edgeType e.m_isActive false).zValue ∧
  Effect.setZValue (env.getStyleForEdgeType e.edgeType e.m_isActive false).zValue ∈ effs ∧
  (∀ f ∈ effs, f.styleArg = none ∨
      f.styleArg = some (env.getStyleForEdgeType e.edgeType e.m_isActive false))

/-- C5: Edge styling is a function of the semantic type and the activity
flag: `updateLine` uses `getStyleForEdgeType(type, m_isActive, false)` with
the data's type (or `EDGE_AGGREGATION` without data) for every style it
passes on, and sets the edge's z-value to that style's `zValue`. -/
theorem updateLine_style_usage (env : ExternalEnv) (e e1 : QtGraphEdge)
    (o t : QtGraphNode) (effs : List Effect)
    (ho : e.m_owner = some o) (ht : e.m_target = some t)
    (h : updateLine env e = some (e1, effs)) :
    StyleUsageSpec env e e1 effs := by
  rcases updateLine_cases env e e1 effs h with ⟨-, -, hdead | hdead⟩ |
    ⟨o', t', ho', ht', hbr⟩
  · rw [hdead] at ho
    exact absurd ho (by simp)
  · rw [hdead] at ht
    exact absurd ht (by simp)
  · rcases hbr with ⟨hs, hc, he1, heffs⟩ | ⟨hs, hc, he1, heffs⟩ <;>
      subst he1 <;> subst heffs <;>
      refine ⟨fun d hd => by simp [QtGraphEdge.edgeType, hd],
        fun hn => by simp [QtGraphEdge.edgeType, hn], rfl, ?_, ?_⟩
    · simp [straightEffects]
    · intro f hf
      unfold straightEffects at hf
      simp only [List.mem_append, mem_ite_nil_iff, List.mem_cons,
        List.not_mem_nil, or_false] at hf
      casesm* _ ∨ _, _ ∧ _ <;> subst_vars <;> simp [Effect.styleArg]
    · simp [angledEffects]
    · intro f hf
      unfold angledEffects at hf
      simp only [List.mem_append, mem_ite_nil_iff, List.mem_cons,
        List.not_mem_nil, or_false] at hf
      casesm* _ ∨ _, _ ∧ _ <;> subst_vars <;> simp [Effect.styleArg]

/-- The conditional styling rules claimed for `updateLine`: on the angled
path the route is forced horizontal exactly for types other than inheritance
and aggregation, the middle pivot is set exactly for aggregation, and the
arrow is hidden only for an aggregation with `DIRECTION_NONE`; on the
straight path the arrow shows iff the direction is not `DIRECTION_NONE`. -/
def ConditionalStylingSpec (env : ExternalEnv) (e : QtGraphEdge)
    (effs : List Effect) : Prop :=
  ((env.getStyleForEdgeType e.edgeType e.m_isActive false).isStraight = false →
      (Effect.setRoute Route.ROUTE_HORIZONTAL ∈ effs ↔
        (e.edgeType ≠ EdgeType.EDGE_INHERITANCE ∧
         e.edgeType ≠ EdgeType.EDGE_AGGREGATION)) ∧
      (Effect.setPivot Pivot.PIVOT_MIDDLE ∈ effs ↔
        e.edgeType = EdgeType.EDGE_AGGREGATION) ∧
      (∀ r1 r2 r3 r4 st w sa, Effect.angledLineUpdate r1 r2 r3 r4 st w sa ∈ effs →
        sa = (if e.edgeType = EdgeType.EDGE_AGGREGATION then
                decide (e.m_direction ≠ Direction.DIRECTION_NONE)
              else true))) ∧
  ((env.getStyleForEdgeType e.edgeType e.m_isActive false).isStraight = true →
      (∀ r1 r2 w st cs sa, Effect.straightLineUpdate r1 r2 w st cs sa ∈ effs →
        sa = decide (e.m_direction ≠ Direction.DIRECTION_NONE)))

/-- C6: For angled edges the route is forced to `ROUTE_HORIZONTAL` exactly
when the type is neither `EDGE_INHERITANCE` nor `EDGE_AGGREGATION`; for
`EDGE_AGGREGATION` the pivot is `PIVOT_MIDDLE` and the arrow shows iff the
direction is not `DIRECTION_NONE`, every other type always showing it; for
straight edges the arrow shows iff the direction is not `DIRECTION_NONE`. -/
theorem updateLine_conditional_styling (env : ExternalEnv) (e e1 : QtGraphEdge)
    (o t : QtGraphNode) (effs : List Effect)
    (ho : e.m_owner = some o) (ht : e.m_target = some t)
    (h : updateLine env e = some (e1, effs)) :
    ConditionalStylingSpec env e effs := by
  rcases updateLine_cases env e e1 effs h with ⟨-, -, hdead | hdead⟩ |
    ⟨o', t', ho', ht', hbr⟩
  · rw [hdead] at ho
    exact absurd ho (by simp)
  · rw [hdead] at ht
    exact absurd ht (by simp)
  · rcases hbr with ⟨hs, hc, he1, heffs⟩ | ⟨hs, hc, he1, heffs⟩ <;>
      subst he1 <;> subst heffs
    · refine ⟨fun hns => absurd hs (by simp [hns]), fun _ => ?_⟩
      intro r1 r2 w st cs sa hf
      unfold straightEffects at hf
      simp only [List.mem_append, mem_ite_nil_iff, List.mem_cons,
        List.not_mem_nil, or_false] at hf
      casesm* _ ∨ _, _ ∧ _ <;> simp_all
    · refine ⟨fun _ => ⟨?_, ?_, ?_⟩, fun hys => absurd hs (by simp [hys])⟩
      · simp [angledEffects, mem_ite_nil_iff]
      · simp [angledEffects, mem_ite_nil_iff]
      · intro r1 r2 r3 r4 st w sa hf
        unfold angledEffects at hf
        simp only [List.mem_append, mem_ite_nil_iff, List.mem_cons,
          List.not_mem_nil, or_false] at hf
        casesm* _ ∨ _, _ ∧ _ <;> simp_all

end QtGraphEdgeModel

namespace QtGraphEdgeModel

/-! ## Concrete sample data for witnessing the theorems -/

/-- A concrete graph node. -/
def nodeA : QtGraphNode :=
  { isActive := false, tokenId := 7, boundingRect := ⟨0, 0, 10, 10⟩,
    parentBoundingRect := ⟨0, 0, 20, 20⟩, lastParent := 1 }

/-- A second concrete graph node. -/
def nodeB : QtGraphNode :=
  { isActive := true, tokenId := 9, boundingRect := ⟨30, 0, 10, 10⟩,
    parentBoundingRect := ⟨30, 0, 20, 20⟩, lastParent := 2 }

/-- A concrete environment whose styles are all straight. -/
def envStraight : ExternalEnv :=
  { getStyleForEdgeType := fun _ _ _ => { isStraight := true, zValue := 5 }
    getStyleOfCountCircle := ⟨3⟩
    getTypeString := fun _ => "use" }

/-- A concrete environment whose styles are all angled. -/
def envAngled : ExternalEnv :=
  { getStyleForEdgeType := fun _ _ _ => { isStraight := false, zValue := 2 }
    getStyleOfCountCircle := ⟨3⟩
    getTypeString := fun _ => "call" }

/-- Concrete data of a call edge. -/
def callData : EdgeData :=
  { id := 21, type := EdgeType.EDGE_CALL, fromNameHierarchy := ["A", "f"],
    toNameHierarchy := ["B", "g"], aggregationIds := [] }

/-- A concrete edge with data, both nodes alive and no child yet. -/
def sampleEdge : QtGraphEdge :=
  { m_data := some callData, m_owner := some nodeA, m_target := some nodeB,
    m_child := none, m_isActive := false, m_fromActive := false, m_toActive := true,
    m_weight := 2, m_direction := Direction.DIRECTION_FORWARD,
    m_mousePos := ⟨0, 0⟩, m_mouseMoved := false, zValue := 0 }

/-- A concrete aggregation edge (no data), both nodes alive. -/
def aggEdge : QtGraphEdge := { sampleEdge with m_data := none }

/-- A concrete edge whose owner weak pointer has expired. -/
def deadEdge : QtGraphEdge := { sampleEdge with m_owner := none }

/-- An expired-owner edge without data, direction backward (so `onClick`
locks the expired owner pointer). -/
def bundleDead : QtGraphEdge :=
  { deadEdge with m_data := none, m_direction := Direction.DIRECTION_BACKWARD }

/-- The run of `updateLine` on `sampleEdge` in the straight environment. -/
def straightRun : QtGraphEdge × List Effect :=
  (updateLine envStraight sampleEdge).getD (sampleEdge, [])

/-- The run of `updateLine` on `aggEdge` in the angled environment. -/
def angledRun : QtGraphEdge × List Effect :=
  (updateLine envAngled aggEdge).getD (aggEdge, [])

/-- The run of the constructor with backward direction. -/
def constructRun : QtGraphEdge × List Effect :=
  (construct envStraight (some nodeA) (some nodeB) (some callData) 2 false
    Direction.DIRECTION_BACKWARD).getD (sampleEdge, [])

/-- The run of `focusIn` on `sampleEdge`. -/
def focusRun : QtGraphEdge × List Effect :=
  (focusIn envStraight sampleEdge).getD (sampleEdge, [])

/-- The run of `setIsActive true` on `sampleEdge`. -/
def activeRun : QtGraphEdge × List Effect :=
  (setIsActive envStraight sampleEdge true).getD (sampleEdge, [])

/-! ## Witnesses -/

/-- Witness for C1 at a concrete edge with data and a concrete bundle edge. -/
theorem onClick_single_message_witness :
    sampleEdge.m_data = some callData ∧
    onClick sampleEdge =
      some [Effect.dispatchActivateEdge callData.id callData.type
        callData.fromNameHierarchy callData.toNameHierarchy
        (if callData.type = EdgeType.EDGE_AGGREGATION then callData.aggregationIds else [])] ∧
    aggEdge.m_data = none ∧
    (if aggEdge.m_direction = Direction.DIRECTION_BACKWARD then aggEdge.m_owner
     else aggEdge.m_target) = some nodeB ∧
    onClick aggEdge = some [Effect.dispatchGraphNodeBundleSplit nodeB.tokenId] :=
  ⟨rfl, (onClick_single_message sampleEdge).1 callData rfl, rfl, rfl,
    (onClick_single_message aggEdge).2 rfl nodeB rfl⟩

/-- Witness for C2 at a concrete straight run. -/
theorem updateLine_route_choice_witness :
    sampleEdge.m_owner = some nodeA ∧ sampleEdge.m_target = some nodeB ∧
    updateLine envStraight sampleEdge = some (straightRun.1, straightRun.2) ∧
    RouteChoiceSpec envStraight sampleEdge nodeA nodeB straightRun.1 straightRun.2 :=
  ⟨rfl, rfl, rfl,
    updateLine_route_choice envStraight sampleEdge straightRun.1 nodeA nodeB
      straightRun.2 rfl rfl rfl⟩

/-- Witness for C3 at a concrete expired-pointer edge. -/
theorem single_null_check_witness :
    (deadEdge.m_owner = none ∨ deadEdge.m_target = none) ∧
    updateLine envStraight deadEdge = some (deadEdge, [Effect.logWarning warningMessage]) ∧
    construct envStraight none (some nodeB) none 1 false Direction.DIRECTION_FORWARD = none ∧
    bundleDead.m_data = none ∧
    onClick bundleDead = none :=
  ⟨Or.inl rfl, (single_null_check envStraight).1 deadEdge (Or.inl rfl),
    (single_null_check envStraight).2.1 none (some nodeB) none 1 false
      Direction.DIRECTION_FORWARD (Or.inl rfl),
    rfl, (single_null_check envStraight).2.2 bundleDead rfl rfl⟩

/-- Witness for C4 at a concrete edge with data. -/
theorem hover_events_witness :
    sampleEdge.m_data = some callData ∧
    hoverEnterEvent envStraight sampleEdge =
      some (sampleEdge, [Effect.dispatchFocusIn [callData.id]]) ∧
    hoverLeaveEvent envStraight sampleEdge =
      some (sampleEdge, [Effect.dispatchFocusOut [callData.id]]) :=
  ⟨rfl, ((hover_events envStraight sampleEdge).1 callData rfl).1,
    ((hover_events envStraight sampleEdge).1 callData rfl).2⟩

/-- Witness for C5 at a concrete straight run. -/
theorem updateLine_style_usage_witness :
    sampleEdge.m_owner = some nodeA ∧ sampleEdge.m_target = some nodeB ∧
    updateLine envStraight sampleEdge = some (straightRun.1, straightRun.2) ∧
    StyleUsageSpec envStraight sampleEdge straightRun.1 straightRun.2 :=
  ⟨rfl, rfl, rfl,
    updateLine_style_usage envStraight sampleEdge straightRun.1 nodeA nodeB
      straightRun.2 rfl rfl rfl⟩

/-- Witness for C6 at a concrete angled run on an aggregation edge. -/
theorem updateLine_conditional_styling_witness :
    aggEdge.m_owner = some nodeA ∧ aggEdge.m_target = some nodeB ∧
    updateLine envAngled aggEdge = some (angledRun.1, angledRun.2) ∧
    ConditionalStylingSpec envAngled aggEdge angledRun.2 :=
  ⟨rfl, rfl, rfl,
    updateLine_conditional_styling envAngled aggEdge angledRun.1 nodeA nodeB
      angledRun.2 rfl rfl rfl⟩

/-- Witness for C8 at a concrete backward construction. -/
theorem construct_swaps_backward_witness :
    construct envStraight (some nodeA) (some nodeB) (some callData) 2 false
      Direction.DIRECTION_BACKWARD = some (constructRun.1, constructRun.2) ∧
    constructRun.1.getOwner = some nodeB ∧ constructRun.1.getTarget = some nodeA :=
  ⟨rfl,
    ((construct_swaps_backward envStraight (some nodeA) (some nodeB) (some callData)
        2 false Direction.DIRECTION_BACKWARD constructRun.1 constructRun.2 rfl).1 rfl).1,
    ((construct_swaps_backward envStraight (some nodeA) (some nodeB) (some callData)
        2 false Direction.DIRECTION_BACKWARD constructRun.1 constructRun.2 rfl).1 rfl).2⟩

/-- Witness for C9 at a concrete `focusIn` run. -/
theorem focusIn_preserves_active_witness :
    focusIn envStraight sampleEdge = some (focusRun.1, focusRun.2) ∧
    focusRun.1.getIsActive = sampleEdge.getIsActive :=
  ⟨rfl, focusIn_preserves_active envStraight sampleEdge focusRun.1 focusRun.2 rfl⟩

/-- Witness for C10 at concrete no-op and idempotent setter calls. -/
theorem setters_noop_idempotent_witness :
    sampleEdge.getIsActive = false ∧
    setIsActive envStraight sampleEdge false = some (sampleEdge, []) ∧
    sampleEdge.m_direction = Direction.DIRECTION_FORWARD ∧
    setDirection envStraight sampleEdge Direction.DIRECTION_FORWARD = some (sampleEdge, []) ∧
    setIsActive envStraight sampleEdge true = some (activeRun.1, activeRun.2) ∧
    setIsActive envStraight activeRun.1 true = some (activeRun.1, []) :=
  ⟨rfl,
    (setters_noop_idempotent envStraight sampleEdge false Direction.DIRECTION_FORWARD).1 rfl,
    rfl,
    (setters_noop_idempotent envStraight sampleEdge false Direction.DIRECTION_FORWARD).2.1 rfl,
    rfl,
    (setters_noop_idempotent envStraight sampleEdge true Direction.DIRECTION_FORWARD).2.2.1
      activeRun.1 activeRun.2 rfl⟩

end QtGraphEdgeModel
